import Mathlib

/-!
Verification development for the Spyral trajectory-reconstruction pipeline.

The phase drivers `phase_pointcloud` (src/spyral/phase_pointcloud.py),
`phase_2` (src/pcutils/phase_2.py) and `phase_solve`
(src/spyral/phase_solve.py) are embedded shallowly below.  Floating-point
values are modelled as rationals, HDF5 files as total or optional maps from
integer keys to records, the multiprocessing queue and the logger as lists
of emitted messages.  Collaborators that live outside the included sources
(the clustering algorithms, the z-calibration routine, the FRIB event
analysis methods and the nonlinear fit inside `solve_physics_interp`) enter
as abstract function parameters, except where a claim is decided by them, in
which case they are modelled from the spec and marked as such.  Per-iteration
progress messages emitted inside the event loops are elided: their cadence
depends on float truncation (`int(flush_percent * n)`) and no statement below
concerns them.
-/

namespace Spyral

/-- Floating-point detector values, modelled as rationals. -/
abbrev Val := ℚ

/-- One row of a point-cloud array (float columns: position, charge, ...). -/
abbrev Point := List Val

/-- A point-cloud payload: an ordered list of rows. -/
abbrev Cloud := List Point

/-- A loaded point cloud: the event number it was loaded for together with
its rows (`PointCloud.load_cloud_from_hdf5_data(data, idx)`). -/
structure PointCloud where
  event : ℕ
  cloud : Cloud
deriving DecidableEq

/-- A cluster as constructed by `Cluster(event, label, cloud)`: event id,
integer label and the owned point subset. -/
structure Cluster where
  event : ℕ
  label : ℤ
  cloud : Cloud
deriving DecidableEq

/-- Phase tags of `StatusMessage` (parallel/status_message.py is not in src;
only the tags the drivers use are modelled). -/
inductive SPhase where
  | wait
  | cloud
  | cluster
  | solve
deriving DecidableEq

/-- A progress message `StatusMessage(run, phase, progress)` put on the queue. -/
structure StatusMessage where
  run : ℕ
  phase : SPhase
  progress : ℕ
deriving DecidableEq

/-- Log levels of `spyral_warn` / `spyral_error` / `spyral_info`. -/
inductive Level where
  | warn
  | error
  | info
deriving DecidableEq

/-- The distinct log messages `phase_solve` can emit, by reason. -/
inductive LogMsg where
  | pidMissing
  | badTarget
  | filesMissing (run : ℕ)
  | clusterGroupMissing (run : ℕ)
  | noEventsInPID (run : ℕ)
  | phase4Complete
deriving DecidableEq

/-- One emitted log record: a level and a reason. -/
abbrev LogEntry := Level × LogMsg

/-- A particle-identification gate: the nucleus it selects and the
two-column cut `is_cols_inside` applied to (dEdx, brho). -/
structure ParticleID where
  cut : Val → Val → Bool
  nucleus : ℕ

/-- The result of `load_target`: either a gas target or some other target
kind (the `isinstance(target, GasTarget)` check distinguishes only these). -/
inductive Target where
  | gas
  | notGas
deriving DecidableEq

/-- The solver-phase configuration fields the driver reads. -/
structure SolverParams where
  ic_min_val : Val
  ic_max_val : Val

/-- One row of the estimate dataframe, with the columns `phase_solve`
touches. -/
structure EstimateRow where
  event : ℕ
  cluster_index : ℕ
  dEdx : Val
  brho : Val
  ic_amplitude : Val
  polar : Val
  azimuthal : Val
  vertex_x : Val
  vertex_y : Val
  vertex_z : Val
deriving DecidableEq

/-- Trajectory direction hint; the driver always passes `Direction.NONE`. -/
inductive Direction where
  | forward
  | backward
  | noneDir
deriving DecidableEq

/-- The kinematic seed `Guess(polar, azimuthal, brho, xv, yv, zv, direction)`
consumed by the solver. -/
structure Guess where
  polar : Val
  azimuthal : Val
  brho : Val
  vertex_x : Val
  vertex_y : Val
  vertex_z : Val
  direction : Direction
deriving DecidableEq

/-- The fitted kinematic fields of one solver result row (everything except
the identification triple). -/
structure FitVals where
  vertex_x : Val
  sigma_vx : Val
  vertex_y : Val
  sigma_vy : Val
  vertex_z : Val
  sigma_vz : Val
  brho : Val
  sigma_brho : Val
  polar : Val
  sigma_polar : Val
  azimuthal : Val
  sigma_azimuthal : Val
  redchisq : Val
deriving DecidableEq

/-- One row of the physics result dataframe. -/
structure ResultRow where
  event : ℕ
  cluster_index : ℕ
  cluster_label : ℤ
  fit : FitVals
deriving DecidableEq

/-- A cluster record as persisted by the cluster phase and read back by the
solve phase: the stored label attribute and the stored point subset. -/
structure StoredCluster where
  label : ℤ
  cloud : Cloud
deriving DecidableEq

/-- The external state `phase_solve` reads, with files as maps.  The solve
driver indexes `cluster_group[f'event_{e}'][f'cluster_{c}']` without an
existence check (estimate rows reference clusters that were written), so the
cluster file is a total map from (event, cluster index) to the stored
record. -/
structure SolveInput where
  pid : Option ParticleID
  target : Target
  clusterFileExists : Bool
  estimateFileExists : Bool
  clusterGroupValid : Bool
  clusterFile : ℕ → ℕ → StoredCluster
  estimates : List EstimateRow
  fit : Cluster → Guess → Option FitVals

/-- Everything `phase_solve` emits: queue messages, log records, the solver
invocations it performed, and the result file (`none` when
`write_parquet` was never reached). -/
structure SolveOutput where
  queue : List StatusMessage
  log : List LogEntry
  fits : List (ℕ × Cluster × Guess)
  resultFile : Option (List ResultRow)

/-- The gate predicate of the estimate filter: the particle-ID cut on
(dEdx, brho) together with `ic_min_val < ic_amplitude < ic_max_val`,
both bounds strict. -/
def gatePred (pid : ParticleID) (sp : SolverParams) (r : EstimateRow) : Bool :=
  pid.cut r.dEdx r.brho && decide (sp.ic_min_val < r.ic_amplitude)
    && decide (r.ic_amplitude < sp.ic_max_val)

/-- Descending-polar comparison used by `.sort('polar', descending=True)`. -/
def polarGE (a b : EstimateRow) : Prop := b.polar ≤ a.polar

instance : DecidableRel polarGE := fun a b => inferInstanceAs (Decidable (b.polar ≤ a.polar))

instance : IsTotal EstimateRow polarGE := ⟨fun a b => le_total b.polar a.polar⟩

instance : IsTrans EstimateRow polarGE := ⟨fun _ _ _ h1 h2 => le_trans h2 h1⟩

/-- Sort the estimate rows by polar angle, descending. -/
def sortPolarDesc (rows : List EstimateRow) : List EstimateRow :=
  List.insertionSort polarGE rows

/-- `.unique('event', keep='first')`: keep the first row seen for each event,
dropping later rows of an already-seen event. -/
def dedupByEvent (seen : List ℕ) : List EstimateRow → List EstimateRow
  | [] => []
  | r :: rest =>
    if r.event ∈ seen then dedupByEvent seen rest
    else r :: dedupByEvent (r.event :: seen) rest

/-- The gating pipeline of `phase_solve`: filter by the particle-ID cut and
the ion-chamber amplitude window, sort by polar angle descending, then keep
one row per event. -/
def gateEstimates (pid : ParticleID) (sp : SolverParams) (rows : List EstimateRow) :
    List EstimateRow :=
  dedupByEvent [] (sortPolarDesc (rows.filter (gatePred pid sp)))

/-- The `Guess` the driver seeds the solver with, taken field by field from
a gated estimate row (direction is always `Direction.NONE`). -/
def mkGuess (r : EstimateRow) : Guess :=
  ⟨r.polar, r.azimuthal, r.brho, r.vertex_x, r.vertex_y, r.vertex_z, Direction.noneDir⟩

/-- The solver invocation the driver builds for one gated row: the cluster
index from the row, the cluster loaded from the cluster file at
(event, cluster index), and the seeded guess. -/
def solveCallOf (inp : SolveInput) (r : EstimateRow) : ℕ × Cluster × Guess :=
  (r.cluster_index,
    ⟨r.event, (inp.clusterFile r.event r.cluster_index).label,
      (inp.clusterFile r.event r.cluster_index).cloud⟩,
    mkGuess r)

/-- Modelled from the spec: `solve_physics_interp` (solvers/solver_interp.py
is not among the included sources).  It fits the cluster seeded at the guess;
on convergence it records one result row carrying the event id of the
cluster, the cluster index it was invoked with and the stored cluster label,
alongside the fitted kinematics; a failed fit records nothing.  The fit
itself is an abstract oracle. -/
def solve_physics_interp (fit : Cluster → Guess → Option FitVals)
    (cidx : ℕ) (cluster : Cluster) (guess : Guess) : Option ResultRow :=
  (fit cluster guess).map (fun fv => ⟨cluster.event, cidx, cluster.label, fv⟩)

/-- The solver loop body over all gated rows: one optional result row per
invocation, accumulated in order. -/
def runSolver (fit : Cluster → Guess → Option FitVals)
    (calls : List (ℕ × Cluster × Guess)) : List ResultRow :=
  calls.filterMap (fun c => solve_physics_interp fit c.1 c.2.1 c.2.2)

/-- The core loop of the solve phase (src/spyral/phase_solve.py): check the
particle-ID gate, the target kind, the cluster and estimate files and the
cluster group, gate the estimates, then fit each gated candidate and write
the result dataframe. -/
def phase_solve (run : ℕ) (inp : SolveInput) (sp : SolverParams) : SolveOutput :=
  match inp.pid with
  | none =>
    ⟨[⟨run, SPhase.wait, 0⟩], [(Level.warn, LogMsg.pidMissing)], [], none⟩
  | some pid =>
    if inp.target ≠ Target.gas then
      ⟨[⟨run, SPhase.wait, 0⟩], [(Level.warn, LogMsg.badTarget)], [], none⟩
    else if ¬ (inp.clusterFileExists ∧ inp.estimateFileExists) then
      ⟨[⟨run, SPhase.wait, 0⟩], [(Level.warn, LogMsg.filesMissing run)], [], none⟩
    else if ¬ inp.clusterGroupValid then
      ⟨[], [(Level.error, LogMsg.clusterGroupMissing run)], [], none⟩
    else
      let gated := gateEstimates pid sp inp.estimates
      if gated.isEmpty then
        ⟨[⟨run, SPhase.wait, 0⟩], [(Level.warn, LogMsg.noEventsInPID run)], [], none⟩
      else
        let calls := gated.map (solveCallOf inp)
        ⟨[], [(Level.info, LogMsg.phase4Complete)], calls,
          some (runSolver inp.fit calls)⟩

/-- The cluster-phase configuration field the driver reads. -/
structure ClusterParams where
  min_write_size : ℕ

/-- The clustering algorithms of core/clusterize.py, which is not among the
included sources; the cluster-phase driver only composes them, so they are
abstract parameters here. -/
structure ClusterAlgo where
  clusterize : PointCloud → List Cluster
  join : List Cluster → List Cluster
  cleanup : List Cluster → List Cluster

/-- The point-cloud file `phase_2` reads: the event range attributes and the
per-event `cloud_{idx}` datasets (`none` when absent). -/
structure PointFile where
  min_event : ℕ
  max_event : ℕ
  clouds : ℕ → Option Cloud

/-- The per-event group written by the cluster phase: the `nclusters`
attribute and, keyed by cluster index, each surviving cluster's stored
label attribute and point subset. -/
structure EventGroup where
  nclusters : ℕ
  clusters : List (ℕ × ℤ × Cloud)
deriving DecidableEq

/-- Everything `phase_2` produces, plus two observation lists that record
which events had their cloud loaded and which reached the clustering
pipeline (`clusterize` / `join_clusters` / `cleanup_clusters`). -/
structure Phase2Output where
  min_event : ℕ
  max_event : ℕ
  groups : List (ℕ × EventGroup)
  loaded : List ℕ
  processed : List ℕ

/-- The cleaned cluster list `phase_2` derives for one event's cloud data:
`cleanup_clusters(join_clusters(clusterize(cloud)))`. -/
def cleanedOf (alg : ClusterAlgo) (idx : ℕ) (data : Cloud) : List Cluster :=
  alg.cleanup (alg.join (alg.clusterize ⟨idx, data⟩))

/-- The body of the `phase_2` event loop for one event index: skip when the
`cloud_{idx}` dataset is absent, skip (before clustering) when the loaded
cloud has fewer than `min_write_size` points, otherwise cluster, join,
clean and write the event group with clusters keyed by enumeration order. -/
def phase2_event (cp : ClusterParams) (alg : ClusterAlgo) (pf : PointFile)
    (idx : ℕ) : Option EventGroup :=
  match pf.clouds idx with
  | none => none
  | some data =>
    if data.length < cp.min_write_size then none
    else
      let cleaned := cleanedOf alg idx data
      some ⟨cleaned.length, cleaned.enum.map (fun p => (p.1, p.2.label, p.2.cloud))⟩

/-- Whether the event loop runs the clustering pipeline on event `idx`. -/
def phase2_runsPipeline (cp : ClusterParams) (pf : PointFile) (idx : ℕ) : Bool :=
  match pf.clouds idx with
  | none => false
  | some data => decide (cp.min_write_size ≤ data.length)

/-- The core loop of the cluster phase (src/pcutils/phase_2.py): iterate the
event indices `min_event .. max_event`, and for each one run
`phase2_event`; loop iterations are independent, so the written groups are
the `filterMap` of the loop body over the index range. -/
def phase_2 (pf : PointFile) (cp : ClusterParams) (alg : ClusterAlgo) : Phase2Output :=
  let events := List.range' pf.min_event (pf.max_event + 1 - pf.min_event)
  { min_event := pf.min_event
    max_event := pf.max_event
    groups := events.filterMap (fun idx => (phase2_event cp alg pf idx).map (fun g => (idx, g)))
    loaded := events.filter (fun idx => (pf.clouds idx).isSome)
    processed := events.filter (phase2_runsPipeline cp pf) }

/-- The FRIB analysis configuration fields the point-cloud driver reads. -/
structure FribParams where
  correct_ic_time : Bool
  ic_multiplicity : Val

/-- An ion-chamber peak: the three measured attributes the driver stores. -/
structure Peak where
  amplitude : Val
  integral : Val
  centroid : Val
deriving DecidableEq

/-- The outcomes of the FRIB event analysis methods for one event
(trace/frib_event.py is not among the included sources, so the results of
`get_good_ic_peak`, `correct_ic_time`, `get_ic_multiplicity` and
`get_triggering_ic_peak` are carried as oracle data on the event). -/
structure FribData where
  goodIC : Option (Val × Peak)
  icCor : Val
  icMult : Val
  trigPeak : Option Peak
deriving DecidableEq

/-- The four ion-chamber attributes stored on every written cloud dataset. -/
structure ICAttrs where
  ic_amplitude : Val
  ic_integral : Val
  ic_centroid : Val
  ic_multiplicity : Val
deriving DecidableEq

/-- The sentinel attribute values the driver initializes every dataset
with: -1.0 in all four fields. -/
def defaultICAttrs : ICAttrs := ⟨-1, -1, -1, -1⟩

/-- One written cloud dataset: its ion-chamber attributes and the (possibly
calibrated) cloud rows. -/
structure CloudDataset where
  attrs : ICAttrs
  data : Cloud
deriving DecidableEq

/-- The trace file `phase_pointcloud` iterates: the event range from the
meta group, the point cloud loaded from each GET event dataset (`none`
when `evt{idx}_data` is absent), and the FRIB event data (`none` when
`evt{idx}_1903` is absent). -/
structure TraceFile where
  min_event : ℕ
  max_event : ℕ
  getData : ℕ → Option Cloud
  fribData : ℕ → Option FribData

/-- The body of the point-cloud event loop after the GET event was loaded:
initialize the four ion-chamber attributes to -1.0; without FRIB data,
calibrate z without a correction and write.  With FRIB data and
`correct_ic_time` on: no good IC peak leaves the sentinels and calibrates
without correction; a good IC peak stores its amplitude, integral, centroid
and multiplicity, and applies the IC time correction to the z calibration
only when it is strictly below 512.0 time buckets.  With `correct_ic_time`
off: calibrate without correction, then store the triggering peak's
attributes only when it exists and the IC multiplicity is within the
configured bound.  The dataset is written in every branch.  The
z-calibration (core point_cloud.py, not among the included sources) is an
abstract parameter taking the optional IC correction. -/
def processPointcloudEvent (fp : FribParams) (calibrate : Option Val → Cloud → Cloud)
    (pc : Cloud) (frib : Option FribData) : CloudDataset :=
  match frib with
  | none => ⟨defaultICAttrs, calibrate none pc⟩
  | some fd =>
    if fp.correct_ic_time then
      match fd.goodIC with
      | none => ⟨defaultICAttrs, calibrate none pc⟩
      | some (mult, peak) =>
        let attrs : ICAttrs := ⟨peak.amplitude, peak.integral, peak.centroid, mult⟩
        if fd.icCor < 512 then ⟨attrs, calibrate (some fd.icCor) pc⟩
        else ⟨attrs, calibrate none pc⟩
    else
      let cal := calibrate none pc
      match fd.trigPeak with
      | some pk =>
        if fd.icMult ≤ fp.ic_multiplicity then
          ⟨⟨pk.amplitude, pk.integral, pk.centroid, fd.icMult⟩, cal⟩
        else ⟨defaultICAttrs, cal⟩
      | none => ⟨defaultICAttrs, cal⟩

/-- The core loop of the point-cloud phase (src/spyral/phase_pointcloud.py):
iterate `min_event .. max_event`; an event whose GET dataset is absent is
skipped, every other event has its cloud dataset written, keyed by the
event number.  The surrounding file/group existence checks happen before
the loop and are upstream of these per-event claims. -/
def phase_pointcloud (tf : TraceFile) (fp : FribParams)
    (calibrate : Option Val → Cloud → Cloud) : List (ℕ × CloudDataset) :=
  (List.range' tf.min_event (tf.max_event + 1 - tf.min_event)).filterMap
    (fun idx => (tf.getData idx).map
      (fun pc => (idx, processPointcloudEvent fp calibrate pc (tf.fribData idx))))

/-- Modelled from the spec: one merging pass of `join_clusters`
(core/clusterize.py is not among the included sources).  Clusters are
scanned in order; each one is merged into the first already-accumulated
cluster it is joinable with (fragments of one physical track: endpoint gap
and direction consistency, abstracted into the `jb` predicate and the `mg`
merge), otherwise it is appended. -/
def insertJoin (jb : Cluster → Cluster → Bool) (mg : Cluster → Cluster → Cluster) :
    List Cluster → Cluster → List Cluster
  | [], c => [c]
  | m :: rest, c => if jb m c then mg m c :: rest else m :: insertJoin jb mg rest c

/-- One full pass of the joiner over a cluster list. -/
def joinPass (jb : Cluster → Cluster → Bool) (mg : Cluster → Cluster → Cluster)
    (cs : List Cluster) : List Cluster :=
  cs.foldl (insertJoin jb mg) []

/-- Modelled from the spec: the fixpoint loop of `join_clusters` — passes
repeat until the cluster count stops changing, so joining is transitive
across passes and no further merges are possible on the output.  Each
shrinking pass removes at least one cluster, so a fuel of the list length
suffices. -/
def joinLoop (jb : Cluster → Cluster → Bool) (mg : Cluster → Cluster → Cluster) :
    ℕ → List Cluster → List Cluster
  | 0, cs => cs
  | n + 1, cs =>
    if (joinPass jb mg cs).length = cs.length then joinPass jb mg cs
    else joinLoop jb mg n (joinPass jb mg cs)

/-- Modelled from the spec: `join_clusters(clusters, params)` — merge
clusters judged to be fragments of a single physical track, repeating until
no further merges are possible; the joinability test and the merge of two
fragments are abstract parameters standing for the configured gap and
collinearity criteria.  An empty input never enters the loop. -/
def join_clusters (jb : Cluster → Cluster → Bool) (mg : Cluster → Cluster → Cluster)
    (cs : List Cluster) : List Cluster :=
  if cs.length = 0 then cs else joinLoop jb mg cs.length cs

/-- Whether the FRIB analysis of an event yields a qualifying ion-chamber
peak: under IC time correction, a good IC peak; otherwise a triggering peak
whose multiplicity is within the configured bound. -/
def icQualifies (fp : FribParams) (frib : Option FribData) : Prop :=
  match frib with
  | none => False
  | some fd =>
    if fp.correct_ic_time then fd.goodIC.isSome = true
    else fd.trigPeak.isSome = true ∧ fd.icMult ≤ fp.ic_multiplicity

/-- The measured attribute values stored for a qualifying event: the good
IC peak's amplitude, integral, centroid and multiplicity under IC time
correction, the triggering peak's attributes with the event multiplicity
otherwise. -/
def measuredICAttrs (fp : FribParams) (fd : FribData) : ICAttrs :=
  if fp.correct_ic_time then
    match fd.goodIC with
    | some (mult, peak) => ⟨peak.amplitude, peak.integral, peak.centroid, mult⟩
    | none => defaultICAttrs
  else
    match fd.trigPeak with
    | some pk => ⟨pk.amplitude, pk.integral, pk.centroid, fd.icMult⟩
    | none => defaultICAttrs

instance (fp : FribParams) (frib : Option FribData) : Decidable (icQualifies fp frib) :=
  match frib with
  | none => isFalse id
  | some fd =>
    if h : fp.correct_ic_time then
      decidable_of_iff (fd.goodIC.isSome = true) (by simp [icQualifies, h])
    else
      decidable_of_iff (fd.trigPeak.isSome = true ∧ fd.icMult ≤ fp.ic_multiplicity)
        (by simp [icQualifies, h])

/-- A run-level prerequisite of the solve phase is missing: the particle-ID
gate did not deserialize, the target is not a gas target, or the cluster or
estimate file does not exist. -/
def prereqMissing (inp : SolveInput) : Prop :=
  inp.pid = none ∨ inp.target ≠ Target.gas ∨
    inp.clusterFileExists = false ∨ inp.estimateFileExists = false

section Fixtures

/-- A concrete particle-ID gate accepting everything, for evaluation. -/
def pid0 : ParticleID := ⟨fun _ _ => true, 1⟩

/-- Concrete solver parameters, for evaluation. -/
def sp0 : SolverParams := ⟨0, 100⟩

/-- A concrete stored cluster, for evaluation. -/
def sc0 : StoredCluster := ⟨7, [[1, 2]]⟩

/-- A concrete estimate row, for evaluation. -/
def row0 : EstimateRow := ⟨4, 2, 1, 1, 50, 30, 45, 0, 0, 10⟩

/-- A second concrete estimate row on the same event with a smaller polar
angle, for evaluation. -/
def row1 : EstimateRow := ⟨4, 0, 1, 1, 50, 20, 45, 0, 0, 10⟩

/-- Solve-phase input with no estimate rows, for evaluation. -/
def inp0 : SolveInput :=
  ⟨some pid0, Target.gas, true, true, true, fun _ _ => sc0, [], fun _ _ => none⟩

/-- Solve-phase input with two estimate rows on one event, for evaluation. -/
def inp1 : SolveInput :=
  ⟨some pid0, Target.gas, true, true, true, fun _ _ => sc0, [row1, row0],
    fun _ _ => some ⟨0, 0, 0, 0, 10, 0, 1, 0, 30, 0, 45, 0, 1⟩⟩

/-- Solve-phase input with no particle-ID gate, for evaluation. -/
def inp2 : SolveInput :=
  ⟨none, Target.gas, true, true, true, fun _ _ => sc0, [row0], fun _ _ => none⟩

/-- A concrete point file: event 0 has a two-point cloud, event 1 has no
data, event 2 has a one-point cloud. -/
def pf0 : PointFile :=
  ⟨0, 2, fun idx => if idx = 0 then some [[1], [2]] else if idx = 2 then some [[3]] else none⟩

/-- Concrete cluster parameters with a write threshold of two points. -/
def cp0 : ClusterParams := ⟨2⟩

/-- A concrete clustering pipeline: one cluster per cloud, joining and
cleanup are identities. -/
def alg0 : ClusterAlgo :=
  ⟨fun pc => [⟨pc.event, 5, pc.cloud⟩], fun cs => cs, fun cs => cs⟩

/-- A concrete ion-chamber peak, for evaluation. -/
def peak0 : Peak := ⟨250, 1000, 12⟩

/-- Concrete FRIB analysis outcomes with a good IC peak and a small time
correction, for evaluation. -/
def fd0 : FribData := ⟨some (1, peak0), 3, 1, some peak0⟩

/-- Concrete FRIB analysis outcomes with a good IC peak and an oversized
time correction, for evaluation. -/
def fd1 : FribData := ⟨some (1, peak0), 700, 1, some peak0⟩

/-- Concrete FRIB analysis outcomes with no peaks at all, for evaluation. -/
def fd2 : FribData := ⟨none, 0, 5, none⟩

/-- Concrete FRIB parameters with IC time correction enabled. -/
def fp0 : FribParams := ⟨true, 2⟩

/-- A concrete z-calibration marking whether an IC correction was applied,
for evaluation. -/
def cal0 : Option Val → Cloud → Cloud :=
  fun oc c => (match oc with | some v => [[v]] | none => []) ++ c

/-- A concrete trace file: event 0 has GET and FRIB data, event 1 has no
GET data, event 2 has GET data but no FRIB data. -/
def tf0 : TraceFile :=
  ⟨0, 2, fun idx => if idx = 0 then some [[1], [2]] else if idx = 2 then some [[3]] else none,
    fun idx => if idx = 0 then some fd0 else none⟩

end Fixtures

section Helpers

/-- Looking up a key in a list built by keying each surviving index with its
own payload finds exactly that index's payload, provided the index list has
no duplicates. -/
theorem lookup_keyed_filterMap {α : Type} (f : ℕ → Option α) (events : List ℕ) (idx : ℕ)
    (hnd : events.Nodup) :
    List.lookup idx (events.filterMap (fun j => (f j).map (fun g => (j, g)))) =
      if idx ∈ events then f idx else none := by
  induction events with
  | nil => simp
  | cons j rest ih =>
    rw [List.nodup_cons] at hnd
    rcases hfj : f j with _ | g
    · rw [List.filterMap_cons]
      simp only [hfj, Option.map_none']
      rw [ih hnd.2]
      by_cases hij : idx = j
      · subst hij
        simp [hnd.1, hfj]
      · simp [List.mem_cons, hij]
    · rw [List.filterMap_cons]
      simp only [hfj, Option.map_some']
      by_cases hij : idx = j
      · subst hij
        simp [List.lookup, hfj]
      · rw [List.lookup, beq_false_of_ne hij, ih hnd.2]
        simp [List.mem_cons, hij]

/-- Membership in the `range(min_event, max_event + 1)` event loop range. -/
theorem mem_eventRange {lo hi idx : ℕ} :
    idx ∈ List.range' lo (hi + 1 - lo) ↔ lo ≤ idx ∧ idx ≤ hi := by
  rw [List.mem_range'_1]; omega

/-- Variant of the lookup lemma where the surviving payload is additionally
transformed with knowledge of its own key. -/
theorem lookup_keyed_filterMap2 {α β : Type} (f : ℕ → Option α) (h : ℕ → α → β)
    (events : List ℕ) (idx : ℕ) (hnd : events.Nodup) :
    List.lookup idx (events.filterMap (fun j => (f j).map (fun g => (j, h j g)))) =
      if idx ∈ events then (f idx).map (h idx) else none := by
  have hfn : (fun j => (f j).map (fun g => (j, h j g))) =
      (fun j => ((f j).map (h j)).map (fun g => (j, g))) := by
    funext j
    rw [Option.map_map]
    rfl
  rw [hfn, lookup_keyed_filterMap (fun j => (f j).map (h j)) events idx hnd]

/-- Looking up an in-range event in the point-cloud phase output yields the
processed dataset exactly when the GET event data exists. -/
theorem phase_pointcloud_lookup (tf : TraceFile) (fp : FribParams)
    (cal : Option Val → Cloud → Cloud) (idx : ℕ)
    (hlo : tf.min_event ≤ idx) (hhi : idx ≤ tf.max_event) :
    List.lookup idx (phase_pointcloud tf fp cal) =
      (tf.getData idx).map (fun pc => processPointcloudEvent fp cal pc (tf.fribData idx)) := by
  have hnd := List.nodup_range' tf.min_event (tf.max_event + 1 - tf.min_event)
  have hmem : idx ∈ List.range' tf.min_event (tf.max_event + 1 - tf.min_event) :=
    mem_eventRange.mpr ⟨hlo, hhi⟩
  exact (lookup_keyed_filterMap2 tf.getData
    (fun j pc => processPointcloudEvent fp cal pc (tf.fribData j))
    (List.range' tf.min_event (tf.max_event + 1 - tf.min_event)) idx hnd).trans
    (if_pos hmem)

/-- Looking up an in-range event in the cluster-phase output yields exactly
the result of the per-event loop body. -/
theorem phase_2_lookup (pf : PointFile) (cp : ClusterParams) (alg : ClusterAlgo)
    (idx : ℕ) (hlo : pf.min_event ≤ idx) (hhi : idx ≤ pf.max_event) :
    List.lookup idx (phase_2 pf cp alg).groups = phase2_event cp alg pf idx := by
  have hnd := List.nodup_range' pf.min_event (pf.max_event + 1 - pf.min_event)
  have hmem : idx ∈ List.range' pf.min_event (pf.max_event + 1 - pf.min_event) :=
    mem_eventRange.mpr ⟨hlo, hhi⟩
  exact (lookup_keyed_filterMap (phase2_event cp alg pf)
    (List.range' pf.min_event (pf.max_event + 1 - pf.min_event)) idx hnd).trans
    (if_pos hmem)

/-- An in-range event is recorded as loaded exactly when its cloud dataset
exists. -/
theorem phase_2_loaded_iff (pf : PointFile) (cp : ClusterParams) (alg : ClusterAlgo)
    (idx : ℕ) (hlo : pf.min_event ≤ idx) (hhi : idx ≤ pf.max_event) :
    idx ∈ (phase_2 pf cp alg).loaded ↔ (pf.clouds idx).isSome = true := by
  have hmem : idx ∈ List.range' pf.min_event (pf.max_event + 1 - pf.min_event) :=
    mem_eventRange.mpr ⟨hlo, hhi⟩
  show idx ∈ List.filter _ _ ↔ _
  rw [List.mem_filter]
  exact ⟨fun h => h.2, fun h => ⟨hmem, h⟩⟩

/-- An in-range event is recorded as clustered exactly when the loop body
reaches the clustering pipeline for it. -/
theorem phase_2_processed_iff (pf : PointFile) (cp : ClusterParams) (alg : ClusterAlgo)
    (idx : ℕ) (hlo : pf.min_event ≤ idx) (hhi : idx ≤ pf.max_event) :
    idx ∈ (phase_2 pf cp alg).processed ↔ phase2_runsPipeline cp pf idx = true := by
  have hmem : idx ∈ List.range' pf.min_event (pf.max_event + 1 - pf.min_event) :=
    mem_eventRange.mpr ⟨hlo, hhi⟩
  show idx ∈ List.filter _ _ ↔ _
  rw [List.mem_filter]
  exact ⟨fun h => h.2, fun h => ⟨hmem, h⟩⟩

/-- Any event group in the cluster-phase output comes from cloud data that
exists, meets the write threshold, and was clustered, joined and cleaned. -/
theorem phase2_groups_mem (pf : PointFile) (cp : ClusterParams) (alg : ClusterAlgo)
    (idx : ℕ) (g : EventGroup) (hmem : (idx, g) ∈ (phase_2 pf cp alg).groups) :
    ∃ data, pf.clouds idx = some data ∧ cp.min_write_size ≤ data.length ∧
      g = ⟨(cleanedOf alg idx data).length,
        (cleanedOf alg idx data).enum.map (fun p => (p.1, p.2.label, p.2.cloud))⟩ := by
  have hmem' : (idx, g) ∈ (List.range' pf.min_event (pf.max_event + 1 - pf.min_event)).filterMap
      (fun j => (phase2_event cp alg pf j).map (fun g => (j, g))) := hmem
  rcases List.mem_filterMap.mp hmem' with ⟨j, _, hj⟩
  rcases hev : phase2_event cp alg pf j with _ | g'
  · rw [hev] at hj
    exact absurd hj (by simp)
  · rw [hev] at hj
    simp only [Option.map_some', Option.some.injEq, Prod.mk.injEq] at hj
    obtain ⟨rfl, rfl⟩ := hj
    rcases hc : pf.clouds j with _ | data
    · simp [phase2_event, hc] at hev
    · by_cases hlt : data.length < cp.min_write_size
      · simp [phase2_event, hc, hlt] at hev
      · simp only [phase2_event, hc] at hev
        rw [if_neg hlt] at hev
        refine ⟨data, rfl, by omega, ?_⟩
        exact (Option.some.inj hev).symm

/-- Rows kept by the per-event deduplication come from the input list. -/
theorem dedupByEvent_subset (l : List EstimateRow) :
    ∀ (seen : List ℕ) (r : EstimateRow), r ∈ dedupByEvent seen l → r ∈ l := by
  induction l with
  | nil =>
    intro seen r h
    simp [dedupByEvent] at h
  | cons c rest ih =>
    intro seen r h
    rw [dedupByEvent] at h
    split at h
    · exact List.mem_cons_of_mem c (ih seen r h)
    · rcases List.mem_cons.mp h with h1 | h2
      · exact h1 ▸ List.mem_cons_self c rest
      · exact List.mem_cons_of_mem c (ih _ r h2)

/-- After the per-event deduplication no two kept rows share an event, and
no kept row's event was already seen. -/
theorem dedupByEvent_nodup (l : List EstimateRow) :
    ∀ seen : List ℕ,
      ((dedupByEvent seen l).map (fun r => r.event)).Nodup ∧
      ∀ r ∈ dedupByEvent seen l, r.event ∉ seen := by
  induction l with
  | nil =>
    intro seen
    simp [dedupByEvent]
  | cons c rest ih =>
    intro seen
    rw [dedupByEvent]
    split
    · exact ih seen
    · rename_i hc
      obtain ⟨ihnd, ihseen⟩ := ih (c.event :: seen)
      refine ⟨?_, ?_⟩
      · rw [List.map_cons, List.nodup_cons]
        refine ⟨?_, ihnd⟩
        intro hmem
        rcases List.mem_map.mp hmem with ⟨r, hr, hre⟩
        exact (ihseen r hr) (by rw [hre]; exact List.mem_cons_self _ _)
      · intro r hr
        rcases List.mem_cons.mp hr with rfl | h2
        · exact hc
        · intro hrs
          exact (ihseen r h2) (List.mem_cons_of_mem _ hrs)

/-- On a list sorted by descending polar angle, the deduplication keeps, for
each yet-unseen event that occurs, a row of that event whose polar angle is
at least the polar angle of every row of that event. -/
theorem dedupByEvent_first_max (l : List EstimateRow) (hs : List.Sorted polarGE l) :
    ∀ (seen : List ℕ) (e : ℕ), e ∉ seen → (∃ r ∈ l, r.event = e) →
      ∃ k ∈ dedupByEvent seen l, k.event = e ∧
        ∀ r ∈ l, r.event = e → r.polar ≤ k.polar := by
  induction l with
  | nil =>
    intro seen e _ hex
    simp at hex
  | cons c rest ih =>
    intro seen e he hex
    rw [List.sorted_cons] at hs
    obtain ⟨hc_ge, hrest⟩ := hs
    rw [dedupByEvent]
    split
    · rename_i hcseen
      have hce : c.event ≠ e := fun h => he (h ▸ hcseen)
      have hex' : ∃ r ∈ rest, r.event = e := by
        rcases hex with ⟨r, hr, hre⟩
        rcases List.mem_cons.mp hr with rfl | h2
        · exact absurd hre hce
        · exact ⟨r, h2, hre⟩
      rcases ih hrest seen e he hex' with ⟨k, hk, hke, hmax⟩
      refine ⟨k, hk, hke, ?_⟩
      intro r hr hre
      rcases List.mem_cons.mp hr with rfl | h2
      · exact absurd hre hce
      · exact hmax r h2 hre
    · rename_i hcseen
      by_cases hce : c.event = e
      · refine ⟨c, List.mem_cons_self _ _, hce, ?_⟩
        intro r hr _
        rcases List.mem_cons.mp hr with rfl | h2
        · exact le_refl _
        · exact hc_ge r h2
      · have he' : e ∉ c.event :: seen := by
          intro h
          rcases List.mem_cons.mp h with h1 | h2
          · exact hce h1.symm
          · exact he h2
        have hex' : ∃ r ∈ rest, r.event = e := by
          rcases hex with ⟨r, hr, hre⟩
          rcases List.mem_cons.mp hr with rfl | h2
          · exact absurd hre hce
          · exact ⟨r, h2, hre⟩
        rcases ih hrest (c.event :: seen) e he' hex' with ⟨k, hk, hke, hmax⟩
        refine ⟨k, List.mem_cons_of_mem _ hk, hke, ?_⟩
        intro r hr hre
        rcases List.mem_cons.mp hr with rfl | h2
        · exact absurd hre hce
        · exact hmax r h2 hre

/-- When the solve phase does write a result file, its rows are exactly the
successful fits over the gated candidates. -/
theorem phase_solve_resultFile_eq (run : ℕ) (inp : SolveInput) (sp : SolverParams)
    (pid : ParticleID) (rs : List ResultRow) (hpid : inp.pid = some pid)
    (hrs : (phase_solve run inp sp).resultFile = some rs) :
    rs = runSolver inp.fit ((gateEstimates pid sp inp.estimates).map (solveCallOf inp)) := by
  simp only [phase_solve, hpid] at hrs
  split at hrs
  · exact absurd hrs (by simp)
  · split at hrs
    · exact absurd hrs (by simp)
    · split at hrs
      · exact absurd hrs (by simp)
      · split at hrs
        · exact absurd hrs (by simp)
        · exact (Option.some.inj hrs).symm

/-- Merging into an accumulator adds at most one cluster. -/
theorem insertJoin_length_le (jb : Cluster → Cluster → Bool)
    (mg : Cluster → Cluster → Cluster) (acc : List Cluster) (c : Cluster) :
    (insertJoin jb mg acc c).length ≤ acc.length + 1 := by
  induction acc with
  | nil => simp [insertJoin]
  | cons m rest ih =>
    rw [insertJoin]
    split
    · simp
    · simpa using Nat.succ_le_succ ih

/-- If merging into the accumulator grew it by one, no merge happened and
the cluster was appended unchanged. -/
theorem insertJoin_length_eq (jb : Cluster → Cluster → Bool)
    (mg : Cluster → Cluster → Cluster) (acc : List Cluster) (c : Cluster)
    (h : (insertJoin jb mg acc c).length = acc.length + 1) :
    insertJoin jb mg acc c = acc ++ [c] := by
  induction acc with
  | nil => simp [insertJoin]
  | cons m rest ih =>
    by_cases hj : jb m c = true
    · rw [insertJoin, if_pos hj] at h
      simp only [List.length_cons] at h
      omega
    · rw [insertJoin, if_neg hj] at h ⊢
      simp only [List.length_cons] at h
      rw [List.cons_append]
      exact congrArg (m :: ·) (ih (by omega))

/-- A joining pass over a suffix grows the accumulator by at most the
suffix length. -/
theorem foldl_insertJoin_length_le (jb : Cluster → Cluster → Bool)
    (mg : Cluster → Cluster → Cluster) (cs : List Cluster) :
    ∀ acc : List Cluster,
      (cs.foldl (insertJoin jb mg) acc).length ≤ acc.length + cs.length := by
  induction cs with
  | nil => intro acc; simp
  | cons c rest ih =>
    intro acc
    rw [List.foldl_cons]
    calc (rest.foldl (insertJoin jb mg) (insertJoin jb mg acc c)).length
        ≤ (insertJoin jb mg acc c).length + rest.length := ih _
      _ ≤ acc.length + 1 + rest.length :=
          Nat.add_le_add_right (insertJoin_length_le jb mg acc c) _
      _ = acc.length + (c :: rest).length := by simp; omega

/-- A joining pass that performs no merge at all leaves the scanned
clusters appended to the accumulator unchanged. -/
theorem foldl_insertJoin_eq (jb : Cluster → Cluster → Bool)
    (mg : Cluster → Cluster → Cluster) (cs : List Cluster) :
    ∀ acc : List Cluster,
      (cs.foldl (insertJoin jb mg) acc).length = acc.length + cs.length →
      cs.foldl (insertJoin jb mg) acc = acc ++ cs := by
  induction cs with
  | nil => intro acc _; simp
  | cons c rest ih =>
    intro acc h
    rw [List.foldl_cons] at h ⊢
    have hle : (rest.foldl (insertJoin jb mg) (insertJoin jb mg acc c)).length ≤
        (insertJoin jb mg acc c).length + rest.length :=
      foldl_insertJoin_length_le jb mg rest _
    have hins : (insertJoin jb mg acc c).length = acc.length + 1 := by
      have := insertJoin_length_le jb mg acc c
      simp only [List.length_cons] at h
      omega
    have heq : insertJoin jb mg acc c = acc ++ [c] := insertJoin_length_eq jb mg acc c hins
    rw [heq] at h ⊢
    rw [ih (acc ++ [c]) (by simp at h ⊢; omega)]
    simp

/-- A full joining pass never increases the cluster count. -/
theorem joinPass_length_le (jb : Cluster → Cluster → Bool)
    (mg : Cluster → Cluster → Cluster) (cs : List Cluster) :
    (joinPass jb mg cs).length ≤ cs.length := by
  simpa using foldl_insertJoin_length_le jb mg cs []

/-- A full joining pass that preserves the cluster count performed no merge
and is the identity. -/
theorem joinPass_eq_self (jb : Cluster → Cluster → Bool)
    (mg : Cluster → Cluster → Cluster) (cs : List Cluster)
    (h : (joinPass jb mg cs).length = cs.length) :
    joinPass jb mg cs = cs := by
  have := foldl_insertJoin_eq jb mg cs [] (by simpa using h)
  simpa [joinPass] using this

/-- With enough fuel, the joiner loop reaches a fixpoint of the pass. -/
theorem joinLoop_fixpoint (jb : Cluster → Cluster → Bool)
    (mg : Cluster → Cluster → Cluster) :
    ∀ (n : ℕ) (cs : List Cluster), cs.length ≤ n →
      joinPass jb mg (joinLoop jb mg n cs) = joinLoop jb mg n cs := by
  intro n
  induction n with
  | zero =>
    intro cs hcs
    have : cs = [] := List.length_eq_zero.mp (Nat.le_zero.mp hcs)
    subst this
    simp [joinLoop, joinPass]
  | succ n ih =>
    intro cs hcs
    by_cases hlen : (joinPass jb mg cs).length = cs.length
    · have heq := joinPass_eq_self jb mg cs hlen
      simp only [joinLoop]
      rw [if_pos hlen]
      simp [heq]
    · have hlt : (joinPass jb mg cs).length < cs.length :=
        lt_of_le_of_ne (joinPass_length_le jb mg cs) hlen
      simp only [joinLoop]
      rw [if_neg hlen]
      exact ih (joinPass jb mg cs) (by omega)

/-- A list on which the joining pass is the identity is a fixpoint of
`join_clusters`. -/
theorem join_clusters_fix (jb : Cluster → Cluster → Bool)
    (mg : Cluster → Cluster → Cluster) (r : List Cluster)
    (hfix : joinPass jb mg r = r) : join_clusters jb mg r = r := by
  by_cases hr0 : r.length = 0
  · simp only [join_clusters]
    rw [if_pos hr0]
  · simp only [join_clusters]
    rw [if_neg hr0]
    rcases hn : r.length with _ | m
    · exact absurd hn hr0
    · simp only [joinLoop]
      have hpl : (joinPass jb mg r).length = r.length := by rw [hfix]
      rw [if_pos hpl]
      exact hfix

/-- C9: `join_clusters` is idempotent — for every cluster list and every
(abstract) joinability criterion and merge operation, applying
`join_clusters` to its own output returns that output unchanged: the output
admits no further merges. -/
theorem join_clusters_idempotent (jb : Cluster → Cluster → Bool)
    (mg : Cluster → Cluster → Cluster) (cs : List Cluster) :
    join_clusters jb mg (join_clusters jb mg cs) = join_clusters jb mg cs := by
  by_cases h0 : cs.length = 0
  · have hcs : cs = [] := List.length_eq_zero.mp h0
    subst hcs
    simp [join_clusters]
  · have hr : join_clusters jb mg cs = joinLoop jb mg cs.length cs := by
      simp only [join_clusters]
      rw [if_neg h0]
    have hfix : joinPass jb mg (join_clusters jb mg cs) = join_clusters jb mg cs := by
      rw [hr]
      exact joinLoop_fixpoint jb mg cs.length cs le_rfl
    exact join_clusters_fix jb mg _ hfix

end Helpers

/-- C1 counterexample: a run with a valid particle-ID gate, a gas target and
existing cluster/estimate files whose gating pipeline leaves zero candidate
events.  The solve phase then writes no result file at all (`resultFile` is
`none`): contrary to the claim, it does not produce an empty but valid
result output for the run. -/
theorem empty_gate_no_output_counterexample :
    gateEstimates pid0 sp0 inp0.estimates = [] ∧
    (phase_solve 1 inp0 sp0).resultFile = none ∧
    ¬ (phase_solve 1 inp0 sp0).resultFile = some [] := by decide

/-- C1 (amended): for every run in which the gating pipeline leaves zero
candidate events, the solve phase skips the run without raising: it writes
no result file, performs no fits, reports the condition with a warning-level
log record (not an error) and signals a WAIT status. -/
theorem empty_gate_skips_run (run : ℕ) (inp : SolveInput) (sp : SolverParams)
    (pid : ParticleID) (hpid : inp.pid = some pid) (htgt : inp.target = Target.gas)
    (hcf : inp.clusterFileExists = true) (hef : inp.estimateFileExists = true)
    (hcg : inp.clusterGroupValid = true)
    (hempty : gateEstimates pid sp inp.estimates = []) :
    (phase_solve run inp sp).resultFile = none ∧
    (phase_solve run inp sp).fits = [] ∧
    (phase_solve run inp sp).log = [(Level.warn, LogMsg.noEventsInPID run)] ∧
    (phase_solve run inp sp).queue = [⟨run, SPhase.wait, 0⟩] := by
  refine ⟨?_, ?_, ?_, ?_⟩ <;> simp [phase_solve, hpid, htgt, hcf, hef, hcg, hempty]

/-- Witness for the amended C1 at a concrete run with no estimate rows. -/
theorem empty_gate_skips_run_witness :
    (phase_solve 1 inp0 sp0).resultFile = none ∧
    (phase_solve 1 inp0 sp0).fits = [] ∧
    (phase_solve 1 inp0 sp0).log = [(Level.warn, LogMsg.noEventsInPID 1)] ∧
    (phase_solve 1 inp0 sp0).queue = [⟨1, SPhase.wait, 0⟩] :=
  empty_gate_skips_run 1 inp0 sp0 pid0 rfl rfl rfl rfl rfl rfl

/-- C2: the gating stage submits at most one candidate per event (kept
events are pairwise distinct); for every event with at least one row passing
the particle-ID cut and the strict ion-chamber amplitude window, the kept
row is such a row and its polar angle is maximal among them; and in the
solve phase each kept row seeds the solver invocation with its cluster
index, its cluster from the cluster file and a `Guess` built from its
fields. -/
theorem gating_one_max_polar_candidate_per_event :
    (∀ (pid : ParticleID) (sp : SolverParams) (rows : List EstimateRow),
      ((gateEstimates pid sp rows).map (fun r => r.event)).Nodup) ∧
    (∀ (pid : ParticleID) (sp : SolverParams) (rows : List EstimateRow) (e : ℕ),
      (∃ r ∈ rows, gatePred pid sp r = true ∧ r.event = e) →
      ∃ k ∈ gateEstimates pid sp rows,
        k.event = e ∧ k ∈ rows ∧ gatePred pid sp k = true ∧
        ∀ r ∈ rows, gatePred pid sp r = true → r.event = e → r.polar ≤ k.polar) ∧
    (∀ (run : ℕ) (inp : SolveInput) (sp : SolverParams) (pid : ParticleID),
      inp.pid = some pid → inp.target = Target.gas →
      inp.clusterFileExists = true → inp.estimateFileExists = true →
      inp.clusterGroupValid = true →
      (phase_solve run inp sp).fits =
        (gateEstimates pid sp inp.estimates).map (solveCallOf inp)) := by
  refine ⟨?_, ?_, ?_⟩
  · intro pid sp rows
    exact (dedupByEvent_nodup (sortPolarDesc (rows.filter (gatePred pid sp))) []).1
  · intro pid sp rows e hex
    have hperm := List.perm_insertionSort polarGE (rows.filter (gatePred pid sp))
    have hsorted : List.Sorted polarGE (sortPolarDesc (rows.filter (gatePred pid sp))) :=
      List.sorted_insertionSort polarGE _
    have hex' : ∃ r ∈ sortPolarDesc (rows.filter (gatePred pid sp)), r.event = e := by
      rcases hex with ⟨r, hr, hg, hre⟩
      exact ⟨r, hperm.mem_iff.mpr (List.mem_filter.mpr ⟨hr, hg⟩), hre⟩
    rcases dedupByEvent_first_max (sortPolarDesc (rows.filter (gatePred pid sp))) hsorted
      [] e (List.not_mem_nil e) hex' with ⟨k, hk, hke, hmax⟩
    have hkl := dedupByEvent_subset (sortPolarDesc (rows.filter (gatePred pid sp))) [] k hk
    rcases List.mem_filter.mp (hperm.mem_iff.mp hkl) with ⟨hkrows, hkg⟩
    refine ⟨k, hk, hke, hkrows, hkg, ?_⟩
    intro r hr hg hre
    exact hmax r (hperm.mem_iff.mpr (List.mem_filter.mpr ⟨hr, hg⟩)) hre
  · intro run inp sp pid hpid htgt hcf hef hcg
    rcases hg : gateEstimates pid sp inp.estimates with _ | ⟨r0, rest⟩
    · simp [phase_solve, hpid, htgt, hcf, hef, hcg, hg]
    · simp [phase_solve, hpid, htgt, hcf, hef, hcg, hg]

/-- Witness for C2 at a concrete input: two rows on event 4, the kept one
having the larger polar angle, with the solve-phase fits equation evaluated
on the corresponding input. -/
theorem gating_one_max_polar_candidate_per_event_witness :
    ((gateEstimates pid0 sp0 [row1, row0]).map (fun r => r.event)).Nodup ∧
    (∃ k ∈ gateEstimates pid0 sp0 [row1, row0],
      k.event = 4 ∧ k ∈ [row1, row0] ∧ gatePred pid0 sp0 k = true ∧
      ∀ r ∈ [row1, row0], gatePred pid0 sp0 r = true → r.event = 4 → r.polar ≤ k.polar) ∧
    (phase_solve 3 inp1 sp0).fits =
      (gateEstimates pid0 sp0 inp1.estimates).map (solveCallOf inp1) :=
  ⟨gating_one_max_polar_candidate_per_event.1 pid0 sp0 [row1, row0],
    gating_one_max_polar_candidate_per_event.2.1 pid0 sp0 [row1, row0] 4
      ⟨row0, by decide, by decide, by decide⟩,
    gating_one_max_polar_candidate_per_event.2.2 3 inp1 sp0 pid0 rfl rfl rfl rfl rfl⟩

/-- C3: within the event range, a loaded cloud with fewer than
`min_write_size` points never reaches the clustering pipeline and has no
event group written for it (not even an empty one), while a loaded cloud
with at least `min_write_size` points is clustered, joined, cleaned and has
its event group written. -/
theorem phase2_small_clouds_not_clustered (pf : PointFile) (cp : ClusterParams)
    (alg : ClusterAlgo) (idx : ℕ) (data : Cloud)
    (hlo : pf.min_event ≤ idx) (hhi : idx ≤ pf.max_event)
    (hdata : pf.clouds idx = some data) :
    (data.length < cp.min_write_size →
      idx ∉ (phase_2 pf cp alg).processed ∧
      List.lookup idx (phase_2 pf cp alg).groups = none) ∧
    (cp.min_write_size ≤ data.length →
      idx ∈ (phase_2 pf cp alg).processed ∧
      List.lookup idx (phase_2 pf cp alg).groups =
        some ⟨(cleanedOf alg idx data).length,
          (cleanedOf alg idx data).enum.map (fun p => (p.1, p.2.label, p.2.cloud))⟩) := by
  constructor
  · intro hlt
    constructor
    · rw [phase_2_processed_iff pf cp alg idx hlo hhi]
      simp only [phase2_runsPipeline, hdata, decide_eq_true_eq]
      omega
    · rw [phase_2_lookup pf cp alg idx hlo hhi]
      simp [phase2_event, hdata, hlt]
  · intro hge
    constructor
    · rw [phase_2_processed_iff pf cp alg idx hlo hhi]
      simp only [phase2_runsPipeline, hdata, decide_eq_true_eq]
      exact hge
    · rw [phase_2_lookup pf cp alg idx hlo hhi]
      simp only [phase2_event, hdata]
      rw [if_neg (not_lt.mpr hge)]

/-- Witness for C3 at a concrete input: event 2's one-point cloud is below
the threshold of two and produces nothing; event 0's two-point cloud is
clustered and written. -/
theorem phase2_small_clouds_not_clustered_witness :
    (2 ∉ (phase_2 pf0 cp0 alg0).processed ∧
      List.lookup 2 (phase_2 pf0 cp0 alg0).groups = none) ∧
    (0 ∈ (phase_2 pf0 cp0 alg0).processed ∧
      List.lookup 0 (phase_2 pf0 cp0 alg0).groups =
        some ⟨(cleanedOf alg0 0 [[1], [2]]).length,
          (cleanedOf alg0 0 [[1], [2]]).enum.map (fun p => (p.1, p.2.label, p.2.cloud))⟩) :=
  ⟨(phase2_small_clouds_not_clustered pf0 cp0 alg0 2 [[3]] (by decide) (by decide) rfl).1
      (by decide),
    (phase2_small_clouds_not_clustered pf0 cp0 alg0 0 [[1], [2]] (by decide) (by decide) rfl).2
      (by decide)⟩

/-- C4: when a run-level prerequisite is missing — no deserializable
particle-ID gate, a non-gas target, or a missing cluster or estimate file —
the solve phase skips the whole run: it fits no cluster, writes no result
file, reports the reason with a warning and a WAIT status, and (being a
total function) does not raise. -/
theorem missing_prereq_skips_run (run : ℕ) (inp : SolveInput) (sp : SolverParams)
    (h : prereqMissing inp) :
    (phase_solve run inp sp).resultFile = none ∧
    (phase_solve run inp sp).fits = [] ∧
    (∃ m, (Level.warn, m) ∈ (phase_solve run inp sp).log) ∧
    (⟨run, SPhase.wait, 0⟩ : StatusMessage) ∈ (phase_solve run inp sp).queue := by
  rcases hpid : inp.pid with _ | pid
  · refine ⟨?_, ?_, ⟨LogMsg.pidMissing, ?_⟩, ?_⟩ <;> simp [phase_solve, hpid]
  · by_cases htgt : inp.target = Target.gas
    · have hcond : ¬ (inp.clusterFileExists = true ∧ inp.estimateFileExists = true) := by
        rcases h with h1 | h2 | h3 | h4
        · rw [hpid] at h1
          exact absurd h1 (by simp)
        · exact absurd htgt h2
        · intro hand
          rw [h3] at hand
          exact absurd hand.1 (by simp)
        · intro hand
          rw [h4] at hand
          exact absurd hand.2 (by simp)
      refine ⟨?_, ?_, ⟨LogMsg.filesMissing run, ?_⟩, ?_⟩ <;>
        simp [phase_solve, hpid, htgt, hcond]
    · refine ⟨?_, ?_, ⟨LogMsg.badTarget, ?_⟩, ?_⟩ <;> simp [phase_solve, hpid, htgt]

/-- Witness for C4 at a concrete input whose particle-ID gate is absent. -/
theorem missing_prereq_skips_run_witness :
    (phase_solve 2 inp2 sp0).resultFile = none ∧
    (phase_solve 2 inp2 sp0).fits = [] ∧
    (∃ m, (Level.warn, m) ∈ (phase_solve 2 inp2 sp0).log) ∧
    (⟨2, SPhase.wait, 0⟩ : StatusMessage) ∈ (phase_solve 2 inp2 sp0).queue :=
  missing_prereq_skips_run 2 inp2 sp0 (Or.inl rfl)

/-- C5: in both the point-cloud phase and the clustering phase, an event
index in the contiguous range whose input data is absent is skipped — the
total loop writes nothing for it and continues — while every event with
data present is picked up: the point-cloud phase writes its processed cloud
dataset and the clustering phase loads its cloud. -/
theorem missing_events_skipped :
    (∀ (tf : TraceFile) (fp : FribParams) (cal : Option Val → Cloud → Cloud) (idx : ℕ),
      tf.min_event ≤ idx → idx ≤ tf.max_event →
      List.lookup idx (phase_pointcloud tf fp cal) =
        (tf.getData idx).map
          (fun pc => processPointcloudEvent fp cal pc (tf.fribData idx))) ∧
    (∀ (pf : PointFile) (cp : ClusterParams) (alg : ClusterAlgo) (idx : ℕ),
      pf.min_event ≤ idx → idx ≤ pf.max_event →
      (pf.clouds idx = none →
        idx ∉ (phase_2 pf cp alg).loaded ∧
        List.lookup idx (phase_2 pf cp alg).groups = none) ∧
      (pf.clouds idx ≠ none → idx ∈ (phase_2 pf cp alg).loaded)) := by
  constructor
  · intro tf fp cal idx hlo hhi
    exact phase_pointcloud_lookup tf fp cal idx hlo hhi
  · intro pf cp alg idx hlo hhi
    constructor
    · intro hnone
      constructor
      · rw [phase_2_loaded_iff pf cp alg idx hlo hhi]
        simp [hnone]
      · rw [phase_2_lookup pf cp alg idx hlo hhi]
        simp [phase2_event, hnone]
    · intro hne
      rw [phase_2_loaded_iff pf cp alg idx hlo hhi]
      exact Option.ne_none_iff_isSome.mp hne

/-- Witness for C5 at concrete inputs: event 1 has no data in either file
and is skipped by both phases, while event 0 has data and is picked up. -/
theorem missing_events_skipped_witness :
    List.lookup 1 (phase_pointcloud tf0 fp0 cal0) = none ∧
    (1 ∉ (phase_2 pf0 cp0 alg0).loaded ∧
      List.lookup 1 (phase_2 pf0 cp0 alg0).groups = none) ∧
    0 ∈ (phase_2 pf0 cp0 alg0).loaded := by
  refine ⟨?_, ?_, ?_⟩
  · rw [missing_events_skipped.1 tf0 fp0 cal0 1 (by decide) (by decide)]
    rfl
  · exact (missing_events_skipped.2 pf0 cp0 alg0 1 (by decide) (by decide)).1 rfl
  · exact (missing_events_skipped.2 pf0 cp0 alg0 0 (by decide) (by decide)).2 (by decide)

/-- C6: within an event, the clustering phase keys surviving clusters by
their enumeration order 0, 1, 2, ... over the cleaned cluster list, and
every solver result row carries the (event, cluster_index) pair and the
stored cluster label of the cluster it was fit from, so results correlate
with clusters unambiguously. -/
theorem cluster_index_correlation :
    (∀ (pf : PointFile) (cp : ClusterParams) (alg : ClusterAlgo) (idx : ℕ) (g : EventGroup),
      (idx, g) ∈ (phase_2 pf cp alg).groups →
      g.clusters.map (fun c => c.1) = List.range g.nclusters) ∧
    (∀ (run : ℕ) (inp : SolveInput) (sp : SolverParams) (pid : ParticleID)
        (rs : List ResultRow),
      inp.pid = some pid →
      (phase_solve run inp sp).resultFile = some rs →
      ∀ row ∈ rs, ∃ r ∈ gateEstimates pid sp inp.estimates,
        row.event = r.event ∧ row.cluster_index = r.cluster_index ∧
        row.cluster_label = (inp.clusterFile r.event r.cluster_index).label) := by
  constructor
  · intro pf cp alg idx g hmem
    rcases phase2_groups_mem pf cp alg idx g hmem with ⟨data, _, _, rfl⟩
    show ((cleanedOf alg idx data).enum.map (fun p => (p.1, p.2.label, p.2.cloud))).map
        (fun c => c.1) = List.range (cleanedOf alg idx data).length
    rw [List.map_map]
    have hcomp : ((fun c : ℕ × ℤ × Cloud => c.1) ∘
        (fun p : ℕ × Cluster => (p.1, p.2.label, p.2.cloud))) = Prod.fst := rfl
    rw [hcomp, List.enum_map_fst]
  · intro run inp sp pid rs hpid hrs row hrow
    have hrs' := phase_solve_resultFile_eq run inp sp pid rs hpid hrs
    subst hrs'
    rcases List.mem_filterMap.mp hrow with ⟨c, hc, hcall⟩
    rcases List.mem_map.mp hc with ⟨r, hr, rfl⟩
    rcases hf : inp.fit (solveCallOf inp r).2.1 (solveCallOf inp r).2.2 with _ | fv
    · simp only [solve_physics_interp, hf, Option.map_none'] at hcall
      exact absurd hcall (by simp)
    · simp only [solve_physics_interp, hf, Option.map_some'] at hcall
      have hrow' : row = ⟨(solveCallOf inp r).2.1.event, (solveCallOf inp r).1,
          (solveCallOf inp r).2.1.label, fv⟩ := (Option.some.inj hcall).symm
      subst hrow'
      exact ⟨r, hr, rfl, rfl, rfl⟩

/-- Witness for C6 at concrete inputs: the written group of event 0 is keyed
0, 1, 2, ... and each result row of a concrete solve run matches its gated
estimate row and stored label. -/
theorem cluster_index_correlation_witness :
    ((phase_2 pf0 cp0 alg0).groups.head?.map
      (fun p => p.2.clusters.map (fun c => c.1) = List.range p.2.nclusters)).getD False ∧
    ∀ row ∈ ((phase_solve 3 inp1 sp0).resultFile.getD []),
      ∃ r ∈ gateEstimates pid0 sp0 inp1.estimates,
        row.event = r.event ∧ row.cluster_index = r.cluster_index ∧
        row.cluster_label = (inp1.clusterFile r.event r.cluster_index).label := by
  constructor
  · have h := cluster_index_correlation.1 pf0 cp0 alg0 0
      ⟨(cleanedOf alg0 0 [[1], [2]]).length,
        (cleanedOf alg0 0 [[1], [2]]).enum.map (fun p => (p.1, p.2.label, p.2.cloud))⟩
      (by decide)
    simpa using h
  · intro row hrow
    exact cluster_index_correlation.2 3 inp1 sp0 pid0
      ((phase_solve 3 inp1 sp0).resultFile.getD []) rfl (by decide) row hrow

/-- C7: every event group the clustering phase persists has its `nclusters`
attribute equal to the number of surviving clusters, one record per
surviving cluster keyed by its cluster index and carrying its stored label
and owned point subset, and the count equals the number of records
written. -/
theorem phase2_group_count_consistent (pf : PointFile) (cp : ClusterParams)
    (alg : ClusterAlgo) (idx : ℕ) (g : EventGroup)
    (hmem : (idx, g) ∈ (phase_2 pf cp alg).groups) :
    g.nclusters = g.clusters.length ∧
    ∃ data, pf.clouds idx = some data ∧ cp.min_write_size ≤ data.length ∧
      g.nclusters = (cleanedOf alg idx data).length ∧
      g.clusters = (cleanedOf alg idx data).enum.map
        (fun p => (p.1, p.2.label, p.2.cloud)) := by
  rcases phase2_groups_mem pf cp alg idx g hmem with ⟨data, hc, hge, rfl⟩
  refine ⟨?_, data, hc, hge, rfl, rfl⟩
  show (cleanedOf alg idx data).length =
    ((cleanedOf alg idx data).enum.map (fun p => (p.1, p.2.label, p.2.cloud))).length
  rw [List.length_map, List.enum_length]

/-- Witness for C7 at the concrete group written for event 0. -/
theorem phase2_group_count_consistent_witness :
    (⟨(cleanedOf alg0 0 [[1], [2]]).length,
      (cleanedOf alg0 0 [[1], [2]]).enum.map (fun p => (p.1, p.2.label, p.2.cloud))⟩ :
        EventGroup).nclusters =
      ((⟨(cleanedOf alg0 0 [[1], [2]]).length,
        (cleanedOf alg0 0 [[1], [2]]).enum.map (fun p => (p.1, p.2.label, p.2.cloud))⟩ :
          EventGroup)).clusters.length :=
  (phase2_group_count_consistent pf0 cp0 alg0 0 _ (by decide)).1

/-- C8: every written cloud dataset carries all four ion-chamber attributes;
without a qualifying peak (including missing FRIB data entirely) they keep
the -1.0 sentinels, with a qualifying peak they hold the measured values;
and whenever GET data exists the dataset is written regardless. -/
theorem ic_attrs_sentinel_or_measured :
    (∀ (fp : FribParams) (cal : Option Val → Cloud → Cloud) (pc : Cloud)
        (frib : Option FribData),
      (¬ icQualifies fp frib →
        (processPointcloudEvent fp cal pc frib).attrs = defaultICAttrs) ∧
      (∀ fd, frib = some fd → icQualifies fp frib →
        (processPointcloudEvent fp cal pc frib).attrs = measuredICAttrs fp fd)) ∧
    (∀ (tf : TraceFile) (fp : FribParams) (cal : Option Val → Cloud → Cloud)
        (idx : ℕ) (pc : Cloud),
      tf.min_event ≤ idx → idx ≤ tf.max_event → tf.getData idx = some pc →
      List.lookup idx (phase_pointcloud tf fp cal) =
        some (processPointcloudEvent fp cal pc (tf.fribData idx))) := by
  constructor
  · intro fp cal pc frib
    rcases frib with _ | fd
    · constructor
      · intro _
        rfl
      · intro fd h
        exact absurd h (by simp)
    · by_cases hct : fp.correct_ic_time = true
      · rcases hg : fd.goodIC with _ | p
        · constructor
          · intro _
            simp [processPointcloudEvent, hct, hg]
          · intro fd' heq hq
            obtain rfl := Option.some.inj heq
            simp [icQualifies, hct, hg] at hq
        · rcases p with ⟨mult, peak⟩
          constructor
          · intro hnq
            simp [icQualifies, hct, hg] at hnq
          · intro fd' heq _
            obtain rfl := Option.some.inj heq
            by_cases hic : fd.icCor < 512 <;>
              simp [processPointcloudEvent, measuredICAttrs, hct, hg, hic]
      · rcases ht : fd.trigPeak with _ | pk
        · constructor
          · intro _
            simp [processPointcloudEvent, hct, ht]
          · intro fd' heq hq
            obtain rfl := Option.some.inj heq
            simp [icQualifies, hct, ht] at hq
        · by_cases hm : fd.icMult ≤ fp.ic_multiplicity
          · constructor
            · intro hnq
              simp [icQualifies, hct, ht, hm] at hnq
            · intro fd' heq _
              obtain rfl := Option.some.inj heq
              simp [processPointcloudEvent, measuredICAttrs, hct, ht, hm]
          · constructor
            · intro _
              simp [processPointcloudEvent, hct, ht, hm]
            · intro fd' heq hq
              obtain rfl := Option.some.inj heq
              simp [icQualifies, hct, ht] at hq
              exact absurd hq hm
  · intro tf fp cal idx pc hlo hhi hdata
    rw [phase_pointcloud_lookup tf fp cal idx hlo hhi, hdata]
    rfl

/-- Witness for C8 at concrete inputs: FRIB data with no peaks keeps the
sentinels, a good IC peak stores the measured values, and event 0's dataset
is written. -/
theorem ic_attrs_sentinel_or_measured_witness :
    (processPointcloudEvent fp0 cal0 [[1]] (some fd2)).attrs = defaultICAttrs ∧
    (processPointcloudEvent fp0 cal0 [[1]] (some fd0)).attrs = measuredICAttrs fp0 fd0 ∧
    List.lookup 0 (phase_pointcloud tf0 fp0 cal0) =
      some (processPointcloudEvent fp0 cal0 [[1], [2]] (tf0.fribData 0)) :=
  ⟨((ic_attrs_sentinel_or_measured.1 fp0 cal0 [[1]] (some fd2)).1 (by decide)),
    ((ic_attrs_sentinel_or_measured.1 fp0 cal0 [[1]] (some fd0)).2 fd0 rfl (by decide)),
    ic_attrs_sentinel_or_measured.2 tf0 fp0 cal0 0 [[1], [2]] (by decide) (by decide) rfl⟩

/-- C10: with IC time correction enabled and a good IC peak found, the
computed IC time correction is applied to the z calibration only when it is
strictly below 512.0 time buckets; at 512.0 or above the cloud is
calibrated without it; in either case the dataset, with its measured
attributes, is produced and written. -/
theorem ic_correction_threshold (fp : FribParams) (cal : Option Val → Cloud → Cloud)
    (pc : Cloud) (fd : FribData) (mult : Val) (peak : Peak)
    (hon : fp.correct_ic_time = true) (hgood : fd.goodIC = some (mult, peak)) :
    (fd.icCor < 512 →
      processPointcloudEvent fp cal pc (some fd) =
        ⟨⟨peak.amplitude, peak.integral, peak.centroid, mult⟩, cal (some fd.icCor) pc⟩) ∧
    (512 ≤ fd.icCor →
      processPointcloudEvent fp cal pc (some fd) =
        ⟨⟨peak.amplitude, peak.integral, peak.centroid, mult⟩, cal none pc⟩) := by
  constructor
  · intro h
    simp [processPointcloudEvent, hon, hgood, h]
  · intro h
    simp [processPointcloudEvent, hon, hgood, not_lt.mpr h]

/-- Witness for C10 at concrete inputs: a correction of 3 time buckets is
applied, one of 700 is not. -/
theorem ic_correction_threshold_witness :
    processPointcloudEvent fp0 cal0 [[9]] (some fd0) =
      ⟨⟨peak0.amplitude, peak0.integral, peak0.centroid, 1⟩, cal0 (some fd0.icCor) [[9]]⟩ ∧
    processPointcloudEvent fp0 cal0 [[9]] (some fd1) =
      ⟨⟨peak0.amplitude, peak0.integral, peak0.centroid, 1⟩, cal0 none [[9]]⟩ :=
  ⟨(ic_correction_threshold fp0 cal0 [[9]] fd0 1 peak0 rfl rfl).1 (by decide),
    (ic_correction_threshold fp0 cal0 [[9]] fd1 1 peak0 rfl rfl).2 (by decide)⟩

end Spyral
